import Mathlib

/-!
Shallow embedding of `src/main.cpp`: a lazy postfix calculator.

A C++ `Lazy` (`std::function<int(void)>`) may capture and mutate external
state (the driver's string buffer), so it is modelled as a state
transformer `σ → Int × σ` over an arbitrary state type `σ`.  An operator
rule (`std::function<int(Lazy, Lazy)>`) becomes a function from two lazies
to a lazy (its body runs when the composed computation is forced, exactly
as `std::bind` defers the call).  Exceptions become `Except Err` results,
and the mutable `definedOperators` map becomes a `Char → Option Rule`
function threaded through `define`.
-/

namespace LazyCalc

/-- The three exception classes of `main.cpp`. -/
inductive Err where
  | syntaxError
  | unknownOperator
  | operatorAlreadyDefined
deriving DecidableEq

/-- `using Lazy = std::function<int(void)>`, instrumented with an explicit
state `σ` standing for whatever external environment the closure captures. -/
def Lazy (σ : Type) : Type := σ → Int × σ

/-- `std::function<int(Lazy, Lazy)>`: a binary operator rule.  Applying it to
its two operands yields the deferred computation `std::bind` would build. -/
def Rule (σ : Type) : Type := Lazy σ → Lazy σ → Lazy σ

/-- The `definedOperators` map of `LazyCalculator`. -/
def Registry (σ : Type) : Type := Char → Option (Rule σ)

/-- The literal test in `parse`: `c == '2' || c == '4' || c == '0'`. -/
def isLiteral (c : Char) : Bool := c == '2' || c == '4' || c == '0'

/-- The value of a literal character: `c - '0'`. -/
def litVal (c : Char) : Int := (c.toNat : Int) - (('0'.toNat : Nat) : Int)

/-- The deferred computation pushed for a literal: `[c]() { return c - '0'; }`.
It touches no external state. -/
def mkLit {σ : Type} (c : Char) : Lazy σ := fun s => (litVal c, s)

/-- One iteration of the scanning loop in `LazyCalculator::parse`, acting on
the current stack (head = top of `stackOfLazy`): literals are pushed; for any
other character the registry is consulted first (`UnknownOperator` if absent),
then the stack must hold at least two items (`SyntaxError` otherwise), the top
two are popped (`a` = top, `b` = next) and `std::bind(rule, b, a)` — that is,
`rule b a` — is pushed. -/
def processChar {σ : Type} (reg : Registry σ) (c : Char) (st : List (Lazy σ)) :
    Except Err (List (Lazy σ)) :=
  if isLiteral c then
    Except.ok (mkLit c :: st)
  else
    match reg c with
    | none => Except.error Err.unknownOperator
    | some rule =>
      match st with
      | a :: b :: rest => Except.ok (rule b a :: rest)
      | _ => Except.error Err.syntaxError

/-- The scanning loop of `LazyCalculator::parse` over the remaining
characters, starting from stack `st`. -/
def scan {σ : Type} (reg : Registry σ) : List Char → List (Lazy σ) →
    Except Err (List (Lazy σ))
  | [], st => Except.ok st
  | c :: cs, st =>
    match processChar reg c st with
    | Except.error e => Except.error e
    | Except.ok st2 => scan reg cs st2

/-- `LazyCalculator::parse`: scan the whole string from an empty stack; the
stack must end with exactly one computation (`SyntaxError` otherwise), which
is returned unforced. -/
def parse {σ : Type} (reg : Registry σ) (s : List Char) : Except Err (Lazy σ) :=
  match scan reg s [] with
  | Except.error e => Except.error e
  | Except.ok [l] => Except.ok l
  | Except.ok _ => Except.error Err.syntaxError

/-- `LazyCalculator::calculate`: parse, then force the result once on the
current external state `s`. -/
def calculate {σ : Type} (reg : Registry σ) (str : List Char) (s : σ) :
    Except Err (Int × σ) :=
  match parse reg str with
  | Except.error e => Except.error e
  | Except.ok l => Except.ok (l s)

/-- `LazyCalculator::define`: if the symbol is present, throw
`OperatorAlreadyDefined` (the map is untouched, so the old registry is
returned alongside the error); otherwise insert the rule. -/
def define {σ : Type} (reg : Registry σ) (c : Char) (rule : Rule σ) :
    Option Err × Registry σ :=
  match reg c with
  | some _ => (some Err.operatorAlreadyDefined, reg)
  | none => (none, fun x => if x = c then some rule else reg x)

/-- Built-in `'+'`: `a() + b()`, forcing the left operand first. -/
def addRule {σ : Type} : Rule σ := fun a b s =>
  let p := a s
  let q := b p.2
  (p.1 + q.1, q.2)

/-- Built-in `'-'`: `a() - b()`. -/
def subRule {σ : Type} : Rule σ := fun a b s =>
  let p := a s
  let q := b p.2
  (p.1 - q.1, q.2)

/-- Built-in `'*'`: `a() * b()`. -/
def mulRule {σ : Type} : Rule σ := fun a b s =>
  let p := a s
  let q := b p.2
  (p.1 * q.1, q.2)

/-- Built-in `'/'`: `a() / b()`, C++ integer division truncating toward
zero, which is `Int.tdiv` (Lean's `/` on `Int` is Euclidean division and
would differ on negative non-exact quotients). -/
def divRule {σ : Type} : Rule σ := fun a b s =>
  let p := a s
  let q := b p.2
  (p.1.tdiv q.1, q.2)

/-- The placeholder rule registered for the literal symbols `'0'`, `'2'`,
`'4'` in the constructor (each is a lambda with body `a() + b()`); it exists
only so that `define` on a literal symbol fails. -/
def litStub {σ : Type} : Rule σ := fun a b s =>
  let p := a s
  let q := b p.2
  (p.1 + q.1, q.2)

/-- The empty `definedOperators` map before the constructor body runs. -/
def emptyRegistry {σ : Type} : Registry σ := fun _ => none

/-- The `LazyCalculator` constructor: successive `define` calls for
`'+' '-' '*' '/'` and then the literal placeholders `'0' '2' '4'`. -/
def initCalc {σ : Type} : Registry σ :=
  let r1 := (define emptyRegistry '+' addRule).2
  let r2 := (define r1 '-' subRule).2
  let r3 := (define r2 '*' mulRule).2
  let r4 := (define r3 '/' divRule).2
  let r5 := (define r4 '0' litStub).2
  let r6 := (define r5 '2' litStub).2
  (define r6 '4' litStub).2

/-- The rule `define('?', [](Lazy a, Lazy b) { return a() ? b() : 0; })` from
the driver: force the left operand; if it is nonzero force and return the
right operand, else return 0 without touching the right operand. -/
def qmarkRule {σ : Type} : Rule σ := fun a b s =>
  let p := a s
  if p.1 = 0 then (0, p.2) else b p.2

/-- The rule `define('P', ...)` from the driver: appends "pomidor" to the
captured buffer and returns 0. -/
def pomidorRule : Rule String := fun _ _ s => (0, s ++ "pomidor")

/-- The rule `define('1', [](Lazy, Lazy) { return 1; })` from the driver. -/
def oneRule {σ : Type} : Rule σ := fun _ _ s => (1, s)

/-- Forget a result's payload, keeping success/failure and the error kind. -/
def resultShape {α : Type} : Except Err α → Except Err Unit
  | Except.ok _ => Except.ok ()
  | Except.error e => Except.error e

/-- Keep only the stack height of a scanning result. -/
def stackHeights {α : Type} : Except Err (List α) → Except Err Nat
  | Except.ok st => Except.ok st.length
  | Except.error e => Except.error e

/-- One scanning step looks at the current character, which symbols are
registered, and the stack height, but never runs a rule or a deferred
computation: over two registries defining the same symbols (over possibly
different state types) and stacks of equal height, it fails the same way or
yields stacks of equal height. -/
theorem processChar_heights {σ τ : Type} (reg1 : Registry σ) (reg2 : Registry τ)
    (hdom : ∀ c, (reg1 c).isSome = (reg2 c).isSome)
    (c : Char) (st1 : List (Lazy σ)) (st2 : List (Lazy τ))
    (hlen : st1.length = st2.length) :
    stackHeights (processChar reg1 c st1) = stackHeights (processChar reg2 c st2) := by
  by_cases hl : isLiteral c = true
  · simp [processChar, hl, stackHeights, hlen]
  · have hd := hdom c
    cases h1 : reg1 c with
    | none =>
      cases h2 : reg2 c with
      | none => simp [processChar, hl, h1, h2, stackHeights]
      | some r2 => rw [h1, h2] at hd; simp at hd
    | some r1 =>
      cases h2 : reg2 c with
      | none => rw [h1, h2] at hd; simp at hd
      | some r2 =>
        rcases st1 with _ | ⟨a1, _ | ⟨b1, t1⟩⟩ <;>
          rcases st2 with _ | ⟨a2, _ | ⟨b2, t2⟩⟩ <;>
          simp_all [processChar, hl, h1, h2, stackHeights]

/-- The scanning loop, over two registries defining the same symbols and
stacks of equal height, fails the same way or yields final stacks of equal
height: no rule and no deferred computation is ever consulted. -/
theorem scan_heights {σ τ : Type} (reg1 : Registry σ) (reg2 : Registry τ)
    (hdom : ∀ c, (reg1 c).isSome = (reg2 c).isSome) :
    ∀ (cs : List Char) (st1 : List (Lazy σ)) (st2 : List (Lazy τ)),
      st1.length = st2.length →
      stackHeights (scan reg1 cs st1) = stackHeights (scan reg2 cs st2) := by
  intro cs
  induction cs with
  | nil => intro st1 st2 h; simp [scan, stackHeights, h]
  | cons c cs ih =>
    intro st1 st2 h
    have hp := processChar_heights reg1 reg2 hdom c st1 st2 h
    cases h1 : processChar reg1 c st1 with
    | error e =>
      cases h2 : processChar reg2 c st2 with
      | error e2 =>
        rw [h1, h2] at hp
        simp [stackHeights] at hp
        simp [scan, h1, h2, stackHeights, hp]
      | ok s2 => rw [h1, h2] at hp; simp [stackHeights] at hp
    | ok s1 =>
      cases h2 : processChar reg2 c st2 with
      | error e2 => rw [h1, h2] at hp; simp [stackHeights] at hp
      | ok s2 =>
        rw [h1, h2] at hp
        simp [stackHeights] at hp
        simp only [scan, h1, h2]
        exact ih s1 s2 hp

/-- Success and failure of `parse` depend only on which symbols are defined,
never on what the rules compute or on the state type. -/
theorem parse_shape {σ τ : Type} (reg1 : Registry σ) (reg2 : Registry τ)
    (hdom : ∀ c, (reg1 c).isSome = (reg2 c).isSome) (cs : List Char) :
    resultShape (parse reg1 cs) = resultShape (parse reg2 cs) := by
  have h := scan_heights reg1 reg2 hdom cs [] [] rfl
  cases h1 : scan reg1 cs [] with
  | error e =>
    cases h2 : scan reg2 cs [] with
    | error e2 =>
      rw [h1, h2] at h
      simp [stackHeights] at h
      simp [parse, h1, h2, resultShape, h]
    | ok st2 => rw [h1, h2] at h; simp [stackHeights] at h
  | ok st1 =>
    cases h2 : scan reg2 cs [] with
    | error e2 => rw [h1, h2] at h; simp [stackHeights] at h
    | ok st2 =>
      rw [h1, h2] at h
      simp [stackHeights] at h
      rcases st1 with _ | ⟨l1, _ | ⟨m1, t1⟩⟩ <;>
        rcases st2 with _ | ⟨l2, _ | ⟨m2, t2⟩⟩ <;>
        simp_all [parse, h1, h2, resultShape]

/-- The constructed registry, written out: a chain of updates over the empty
map, the later definitions outermost.  Holds by unfolding `initCalc`. -/
theorem initCalc_apply {σ : Type} (c : Char) :
    (initCalc : Registry σ) c =
      if c = '4' then some litStub else if c = '2' then some litStub else
      if c = '0' then some litStub else if c = '/' then some divRule else
      if c = '*' then some mulRule else if c = '-' then some subRule else
      if c = '+' then some addRule else none := rfl

/-- Which symbols the constructed registry defines does not depend on the
state type. -/
theorem initCalc_isSome_eq (σ τ : Type) (c : Char) :
    ((initCalc : Registry σ) c).isSome = ((initCalc : Registry τ) c).isSome := by
  rw [initCalc_apply, initCalc_apply]
  split_ifs <;> rfl

/-- C3: for every token string, `parse` returns the remaining deferred
computation without forcing it: no literal or composed computation is forced
and no rule is invoked during parsing, so the outcome of parsing is identical
over any two registries that define the same symbols — even over different
external state types — and no operand side effect can occur before the caller
forces the result. -/
theorem parse_never_forces :
    ∀ (σ τ : Type) (reg1 : Registry σ) (reg2 : Registry τ),
      (∀ c, (reg1 c).isSome = (reg2 c).isSome) →
      ∀ cs : List Char, resultShape (parse reg1 cs) = resultShape (parse reg2 cs) :=
  fun _ _ reg1 reg2 hdom cs => parse_shape reg1 reg2 hdom cs

/-- The statement of `parse_never_forces` at a concrete input: the fresh
calculator over the trivial state and the one over a string buffer parse
"42+" with the same outcome. -/
theorem parse_never_forces_witness :
    resultShape (parse (initCalc : Registry Unit) "42+".toList) =
      resultShape (parse (initCalc : Registry String) "42+".toList) :=
  parse_never_forces Unit String initCalc initCalc
    (initCalc_isSome_eq Unit String) "42+".toList

/-- C1: an operator token pops two deferred computations and passes the one
pushed earlier (popped second) as the rule's first, left argument and the one
pushed most recently (popped first) as the second, right argument; hence the
left-associative results `calculate("42-2-") == 0` and
`calculate("242--") == 0`. -/
theorem operator_operand_order :
    (∀ (σ : Type) (reg : Registry σ) (c : Char) (rule : Rule σ)
        (a b : Lazy σ) (rest : List (Lazy σ)),
        isLiteral c = false → reg c = some rule →
        processChar reg c (a :: b :: rest) = Except.ok (rule b a :: rest)) ∧
    (∀ (σ : Type) (s : σ), calculate initCalc "42-2-".toList s = Except.ok (0, s)) ∧
    (∀ (σ : Type) (s : σ), calculate initCalc "242--".toList s = Except.ok (0, s)) := by
  refine ⟨?_, fun σ s => rfl, fun σ s => rfl⟩
  intro σ reg c rule a b rest hl hreg
  simp [processChar, hl, hreg]

/-- The statement of `operator_operand_order` at a concrete input: scanning
`'-'` over the stack grown from "42" composes `subRule` with the earlier
literal 4 on the left. -/
theorem operator_operand_order_witness :
    processChar (initCalc : Registry Unit) '-' [mkLit '2', mkLit '4'] =
      Except.ok [subRule (mkLit '4') (mkLit '2')] :=
  operator_operand_order.1 Unit initCalc '-' subRule (mkLit '2') (mkLit '4') [] rfl rfl

/-- C2: the four built-in operators are pre-registered at construction and
compute integer add, subtract, multiply and integer-divide (truncating
toward zero, as C++ `/` does: `Int.tdiv`) over the two forced operand
values, the left argument being the operand pushed earlier;
hence `calculate("42+")==6`, `calculate("24-")==-2`, `calculate("42*")==8`
and `calculate("42/")==2`. -/
theorem builtin_operators :
    ∀ (σ : Type),
      (initCalc : Registry σ) '+' = some addRule ∧
      (initCalc : Registry σ) '-' = some subRule ∧
      (initCalc : Registry σ) '*' = some mulRule ∧
      (initCalc : Registry σ) '/' = some divRule ∧
      (∀ (x y : Int) (s : σ),
        addRule (fun t => (x, t)) (fun t => (y, t)) s = (x + y, s) ∧
        subRule (fun t => (x, t)) (fun t => (y, t)) s = (x - y, s) ∧
        mulRule (fun t => (x, t)) (fun t => (y, t)) s = (x * y, s) ∧
        divRule (fun t => (x, t)) (fun t => (y, t)) s = (x.tdiv y, s)) ∧
      (∀ s : σ, calculate initCalc "42+".toList s = Except.ok (6, s)) ∧
      (∀ s : σ, calculate initCalc "24-".toList s = Except.ok (-2, s)) ∧
      (∀ s : σ, calculate initCalc "42*".toList s = Except.ok (8, s)) ∧
      (∀ s : σ, calculate initCalc "42/".toList s = Except.ok (2, s)) :=
  fun _ => ⟨rfl, rfl, rfl, rfl, fun _ _ _ => ⟨rfl, rfl, rfl, rfl⟩,
    fun _ => rfl, fun _ => rfl, fun _ => rfl, fun _ => rfl⟩

/-- C5: a character that is neither a literal nor a registered operator makes
`parse` fail with `UnknownOperator`, and the registry is consulted before the
stack-size check, so this happens at any stack height (here even an empty
stack); in particular `calculate("02&")` fails with `UnknownOperator`. -/
theorem unknown_operator_precedence :
    (∀ (σ : Type) (reg : Registry σ) (c : Char) (st : List (Lazy σ)),
        isLiteral c = false → reg c = none →
        processChar reg c st = Except.error Err.unknownOperator) ∧
    (∀ (σ : Type) (s : σ),
        calculate initCalc "02&".toList s = Except.error Err.unknownOperator) := by
  refine ⟨?_, fun σ s => rfl⟩
  intro σ reg c st hl hreg
  simp [processChar, hl, hreg]

/-- The statement of `unknown_operator_precedence` at a concrete input: the
unregistered `'&'` fails with `UnknownOperator` even on an empty stack, where
an operator would also lack operands. -/
theorem unknown_operator_precedence_witness :
    processChar (initCalc : Registry Unit) '&' [] =
      Except.error Err.unknownOperator :=
  unknown_operator_precedence.1 Unit initCalc '&' [] rfl rfl

/-- C6: `define` on an already-registered symbol — built-in, user-defined or
a reserved literal, all of which are entries of the map — fails with
`OperatorAlreadyDefined` and returns the registry completely unchanged, so
every previously defined operator keeps its rule. -/
theorem define_existing_fails_unchanged :
    ∀ (σ : Type) (reg : Registry σ) (c : Char) (rule : Rule σ),
      (reg c).isSome = true →
      define reg c rule = (some Err.operatorAlreadyDefined, reg) := by
  intro σ reg c rule h
  cases hr : reg c with
  | none => rw [hr] at h; simp at h
  | some r => simp [define, hr]

/-- The statement of `define_existing_fails_unchanged` at a concrete input:
redefining the reserved literal `'0'` fails and leaves the fresh calculator's
registry as it was. -/
theorem define_existing_fails_unchanged_witness :
    define (initCalc : Registry Unit) '0' oneRule =
      (some Err.operatorAlreadyDefined, initCalc) :=
  define_existing_fails_unchanged Unit initCalc '0' oneRule rfl

/-- C9: each of the literal symbols `'0'`, `'2'`, `'4'` evaluates, as a
one-character program, to its fixed value 0, 2, 4, for an arbitrary registry
and an arbitrary external state, which is left untouched. -/
theorem literal_values :
    ∀ (σ : Type) (reg : Registry σ) (s : σ),
      calculate reg ['0'] s = Except.ok (0, s) ∧
      calculate reg ['2'] s = Except.ok (2, s) ∧
      calculate reg ['4'] s = Except.ok (4, s) :=
  fun _ _ _ => ⟨rfl, rfl, rfl⟩

/-- C10: `'1'` is outside the fixed literal set, so it is treated as an
operator symbol: defining it on a fresh calculator succeeds, afterwards
scanning `'1'` consumes two stack items applying the rule to them, and with
the driver's rule returning 1 regardless of its operands,
`calculate("021") == 1`. -/
theorem nonliteral_digit_is_operator :
    ∀ (σ : Type) (rule : Rule σ) (a b : Lazy σ) (rest : List (Lazy σ)) (s : σ),
      isLiteral '1' = false ∧
      (define (initCalc : Registry σ) '1' rule).1 = none ∧
      processChar ((define (initCalc : Registry σ) '1' rule).2) '1' (a :: b :: rest) =
        Except.ok (rule b a :: rest) ∧
      calculate ((define (initCalc : Registry σ) '1' oneRule).2) "021".toList s =
        Except.ok (1, s) :=
  fun _ _ _ _ _ _ => ⟨rfl, rfl, rfl, rfl⟩

/-- A scanning step fails with `SyntaxError` exactly when the character is a
registered operator but the stack holds fewer than two items. -/
theorem processChar_synErr {σ : Type} (reg : Registry σ) (c : Char)
    (st : List (Lazy σ)) :
    processChar reg c st = Except.error Err.syntaxError ↔
      isLiteral c = false ∧ (reg c).isSome = true ∧ st.length < 2 := by
  by_cases hl : isLiteral c = true
  · simp [processChar, hl]
  · cases h1 : reg c with
    | none => simp [processChar, hl, h1]
    | some r =>
      rcases st with _ | ⟨a, _ | ⟨b, t⟩⟩ <;> simp [processChar, hl, h1]

/-- The scanning loop fails with `SyntaxError` exactly when some character of
the string is reached with a stack of fewer than two items while being a
registered operator (the first such failure wins; an earlier error would be
`UnknownOperator` and stop the scan with a different error). -/
theorem scan_synErr {σ : Type} (reg : Registry σ) :
    ∀ (cs : List Char) (st : List (Lazy σ)),
      scan reg cs st = Except.error Err.syntaxError ↔
        ∃ p c q, cs = p ++ c :: q ∧
          ∃ st2, scan reg p st = Except.ok st2 ∧
            isLiteral c = false ∧ (reg c).isSome = true ∧ st2.length < 2 := by
  intro cs
  induction cs with
  | nil =>
    intro st
    simp only [scan]
    constructor
    · intro h; exact absurd h (by simp)
    · rintro ⟨p, c, q, hpq, -⟩
      exact absurd hpq (by cases p <;> simp)
  | cons c cs ih =>
    intro st
    cases h1 : processChar reg c st with
    | error e =>
      have hs : scan reg (c :: cs) st = Except.error e := by simp [scan, h1]
      rw [hs]
      constructor
      · intro h
        have he : e = Err.syntaxError := by simpa using h
        subst he
        exact ⟨[], c, cs, rfl, st, rfl, (processChar_synErr reg c st).mp h1⟩
      · rintro ⟨p, c', q, hpq, st2, hsc, hcond⟩
        cases p with
        | nil =>
          simp only [List.nil_append, List.cons.injEq] at hpq
          obtain ⟨rfl, rfl⟩ := hpq
          have hst : st = st2 := by simpa [scan] using hsc
          have hcontra := (processChar_synErr reg c st2).mpr hcond
          rw [← hst, h1] at hcontra
          exact hcontra
        | cons c0 p' =>
          simp only [List.cons_append, List.cons.injEq] at hpq
          obtain ⟨rfl, -⟩ := hpq
          rw [show scan reg (c :: p') st = Except.error e by simp [scan, h1]] at hsc
          exact absurd hsc (by simp)
    | ok stM =>
      have hs : scan reg (c :: cs) st = scan reg cs stM := by simp [scan, h1]
      rw [hs, ih stM]
      constructor
      · rintro ⟨p, c', q, hpq, st2, hsc, hcond⟩
        exact ⟨c :: p, c', q, by rw [hpq, List.cons_append],
          st2, by simpa [scan, h1] using hsc, hcond⟩
      · rintro ⟨p, c', q, hpq, st2, hsc, hcond⟩
        cases p with
        | nil =>
          simp only [List.nil_append, List.cons.injEq] at hpq
          obtain ⟨rfl, rfl⟩ := hpq
          have hst : st = st2 := by simpa [scan] using hsc
          have hcontra := (processChar_synErr reg c st2).mpr hcond
          rw [← hst, h1] at hcontra
          exact absurd hcontra (by simp)
        | cons c0 p' =>
          simp only [List.cons_append, List.cons.injEq] at hpq
          obtain ⟨rfl, hcs⟩ := hpq
          exact ⟨p', c', q, hcs, st2, by simpa [scan, h1] using hsc, hcond⟩

/-- `parse` fails with `SyntaxError` exactly when either some character is a
registered operator reached with fewer than two stacked items, or the whole
scan succeeds with a final stack of height other than one. -/
theorem parse_synErr {σ : Type} (reg : Registry σ) (cs : List Char) :
    parse reg cs = Except.error Err.syntaxError ↔
      (∃ p c q, cs = p ++ c :: q ∧
        ∃ st, scan reg p [] = Except.ok st ∧
          isLiteral c = false ∧ (reg c).isSome = true ∧ st.length < 2) ∨
      (∃ st, scan reg cs [] = Except.ok st ∧ st.length ≠ 1) := by
  cases h : scan reg cs [] with
  | error e =>
    have hp : parse reg cs = Except.error e := by simp [parse, h]
    rw [hp]
    constructor
    · intro he
      have he2 : e = Err.syntaxError := by simpa using he
      subst he2
      exact Or.inl ((scan_synErr reg cs []).mp h)
    · rintro (hd | ⟨st, hst, -⟩)
      · have hcontra := (scan_synErr reg cs []).mpr hd
        rw [h] at hcontra
        have he2 : e = Err.syntaxError := by simpa using hcontra
        rw [he2]
      · exact absurd hst (by simp)
  | ok st =>
    rcases st with _ | ⟨l, _ | ⟨m, t⟩⟩
    · have hp : parse reg cs = Except.error Err.syntaxError := by simp [parse, h]
      rw [hp]
      constructor
      · intro _
        exact Or.inr ⟨[], rfl, by simp⟩
      · intro _
        rfl
    · have hp : parse reg cs = Except.ok l := by simp [parse, h]
      rw [hp]
      constructor
      · intro hc
        exact absurd hc (by simp)
      · rintro (hd | ⟨st2, hst2, hlen⟩)
        · have hcontra := (scan_synErr reg cs []).mpr hd
          rw [h] at hcontra
          exact absurd hcontra (by simp)
        · have hst : st2 = [l] := by simpa using hst2.symm
          subst hst
          simp at hlen
    · have hp : parse reg cs = Except.error Err.syntaxError := by simp [parse, h]
      rw [hp]
      constructor
      · intro _
        exact Or.inr ⟨l :: m :: t, rfl, by simp⟩
      · intro _
        rfl

/-- `calculate` fails exactly when `parse` fails, with the same error:
forcing the parsed computation itself never raises. -/
theorem calculate_error_iff {σ : Type} (reg : Registry σ) (cs : List Char)
    (s : σ) (e : Err) :
    calculate reg cs s = Except.error e ↔ parse reg cs = Except.error e := by
  cases h : parse reg cs with
  | error e2 => simp [calculate, h]
  | ok l => simp [calculate, h]

/-- C4: `calculate` fails with `SyntaxError` exactly for the structural shape
violations: a registered operator token scanned with fewer than two stacked
computations, or a final stack of height other than one after the full scan;
in particular the inputs "", "42", "4+" and "424+" all fail with
`SyntaxError`. -/
theorem syntax_error_exactly :
    (∀ (σ : Type) (reg : Registry σ) (cs : List Char) (s : σ),
        calculate reg cs s = Except.error Err.syntaxError ↔
          (∃ p c q, cs = p ++ c :: q ∧
            ∃ st, scan reg p [] = Except.ok st ∧
              isLiteral c = false ∧ (reg c).isSome = true ∧ st.length < 2) ∨
          (∃ st, scan reg cs [] = Except.ok st ∧ st.length ≠ 1)) ∧
    (∀ (σ : Type) (s : σ),
      calculate initCalc "".toList s = Except.error Err.syntaxError ∧
      calculate initCalc "42".toList s = Except.error Err.syntaxError ∧
      calculate initCalc "4+".toList s = Except.error Err.syntaxError ∧
      calculate initCalc "424+".toList s = Except.error Err.syntaxError) := by
  refine ⟨?_, fun σ s => ⟨rfl, rfl, rfl, rfl⟩⟩
  intro σ reg cs s
  rw [calculate_error_iff]
  exact parse_synErr reg cs

/-- C7 fails on the code: the constructor also registers the literal symbol
`'0'` (with a placeholder rule), so the registry holds an entry outside the
four built-in operator symbols. -/
theorem registry_exactly_four_counterexample :
    ((initCalc : Registry Unit) '0').isSome = true ∧
      '0' ∉ (['+', '-', '*', '/'] : List Char) :=
  ⟨rfl, by decide⟩

/-- C7 (amended): immediately after construction the registry holds entries
for exactly the seven symbols `+ - * / 0 2 4` — the four built-in operators
plus the three literal symbols, registered with placeholder rules so that
`define` on a literal fails — and nothing else. -/
theorem registry_exactly_seven :
    ∀ (σ : Type) (c : Char),
      ((initCalc : Registry σ) c).isSome = true ↔
        c ∈ (['+', '-', '*', '/', '0', '2', '4'] : List Char) := by
  intro σ c
  rw [initCalc_apply]
  split_ifs with h1 h2 h3 h4 h5 h6 h7 <;> simp_all

/-- C8: the rule of `'?'` forces its left operand and, when that value is 0,
returns 0 without ever forcing the right operand — the result and the final
external state do not depend on the right operand at all, so its side effects
do not occur; in particular `calculate("042P?")`, over the calculator
extended with the driver's `'P'` and `'?'`, returns 0 and leaves the buffer
untouched. -/
theorem qmark_short_circuits :
    (∀ (σ : Type) (a b b' : Lazy σ) (s s' : σ),
        a s = (0, s') →
        qmarkRule a b s = (0, s') ∧ qmarkRule a b s = qmarkRule a b' s) ∧
    (∀ s : String,
        calculate ((define ((define (initCalc : Registry String) 'P'
              pomidorRule).2) '?' qmarkRule).2) "042P?".toList s =
          Except.ok (0, s)) := by
  refine ⟨?_, fun s => rfl⟩
  intro σ a b b' s s' ha
  constructor <;> simp [qmarkRule, ha]

/-- The statement of `qmark_short_circuits` at a concrete input: composing
`'?'` over the literal 0 yields 0 whatever the right operand is. -/
theorem qmark_short_circuits_witness :
    qmarkRule (mkLit '0') (mkLit '2') () = ((0 : Int), ()) ∧
      qmarkRule (mkLit '0') (mkLit '2') () = qmarkRule (mkLit '0') (mkLit '4') () :=
  qmark_short_circuits.1 Unit (mkLit '0') (mkLit '2') (mkLit '4') () () rfl

end LazyCalc
